import Mathlib

/-!
# Verification of the `rn-custom-textinput` component logic

Shallow embedding of the interaction logic of `src/CustomTextInput.tsx`:
the OTP cell handlers (`handleOtpChange`, `handleOtpPaste`,
`handleOtpKeyPress`, `handleOtpFocus`), the split-field handler
(`handleSplitChange`), the configuration validators, the OTP
initialization effect, the style-resolution functions, and the
per-field prop fallbacks of `renderSplitInputs`.

Side effects of the handlers (console warnings, the change callback,
imperative focus/blur requests on cell refs) are modelled as an explicit
list of `OtpEffect` values returned next to the new state.
-/

namespace CustomTextInput

/-! ## JavaScript string helpers -/

/-- Whitespace characters matched by the JavaScript regex class `\s`,
by code point. -/
def isJsSpace (c : Char) : Bool :=
  decide (c.val = 0x09 ∨ c.val = 0x0a ∨ c.val = 0x0b ∨ c.val = 0x0c ∨
    c.val = 0x0d ∨ c.val = 0x20 ∨ c.val = 0xa0 ∨ c.val = 0x1680 ∨
    (0x2000 ≤ c.val ∧ c.val ≤ 0x200a) ∨
    c.val = 0x2028 ∨ c.val = 0x2029 ∨ c.val = 0x202f ∨ c.val = 0x205f ∨
    c.val = 0x3000 ∨ c.val = 0xfeff)

/-- `pastedText.replace(/\s/g, "")` from `handleOtpPaste`. -/
def jsStripSpace (s : String) : String :=
  ⟨s.data.filter (fun c => !(isJsSpace c))⟩

/-- JavaScript `String.prototype.trim` (strip leading and trailing
whitespace), used by `validateSplitFields` on field keys. -/
def jsTrim (s : String) : String :=
  ⟨((s.data.dropWhile (fun c => isJsSpace c)).reverse.dropWhile
      (fun c => isJsSpace c)).reverse⟩

/-- Truthiness of an optional JavaScript string (`undefined` and `""` are
falsy). -/
def jsTruthyStr : Option String → Bool
  | none => false
  | some s => !s.isEmpty

/-! ## Effects emitted by the OTP handlers -/

/-- The distinct `console.warn` sites of the component. -/
inductive WarnTag
  | invalidOtpIndex
  | invalidPasteIndex
  | invalidKeyPressIndex
  | invalidSplitKey
  | badOtpLength
  | badOtpValue
  | badSplitFields
deriving DecidableEq, Repr

/-- Observable side effects of one OTP handler invocation: a developer
warning, the `onOtpChange` callback carrying the joined aggregate code,
or an imperative focus/blur request on the cell ref at an index. -/
inductive OtpEffect
  | warn (tag : WarnTag)
  | callback (otp : String)
  | focusCell (i : Nat)
  | blurCell (i : Nat)
deriving DecidableEq, Repr

/-! ## OTP handlers (`src/CustomTextInput.tsx`, lines 313-427)

`L` is the configured `otpLength`, `vals` the current `otpValues` state
(one string per cell).  Cell indices arrive as `Int` so that the
out-of-range guards of the source are expressible. -/

/-- The character-distribution loop of `handleOtpPaste` (lines 359-369):
starting at offset `i`, writes each remaining pasted character into
cell `currentIndex + i` while that position is below `L`, tracking
`nextFocusIndex` as the last index written. -/
def otpPasteLoop (L currentIndex : Nat) :
    List Char → Nat → List String → Nat → List String × Nat
  | [], _, vals, nextFocusIndex => (vals, nextFocusIndex)
  | c :: rest, i, vals, nextFocusIndex =>
    if currentIndex + i < L then
      otpPasteLoop L currentIndex rest (i + 1)
        (vals.set (currentIndex + i) (String.mk [c])) (currentIndex + i)
    else
      (vals, nextFocusIndex)

/-- JavaScript `Array.prototype.findIndex` restricted to string arrays:
scan the list left to right, the predicate seeing each element together
with its position (`idx` is the position of the list head). -/
def findIndexAux (p : String → Nat → Bool) : List String → Nat → Option Nat
  | [], _ => none
  | v :: rest, idx => if p v idx then some idx else findIndexAux p rest (idx + 1)

/-- `newValues.findIndex((value, index) => !value && index > nextFocusIndex)`
(lines 379-381): the first index holding an empty cell strictly beyond
`nextFocusIndex`. -/
def findNextEmpty (vals : List String) (nextFocusIndex : Nat) : Option Nat :=
  findIndexAux
    (fun value index => value.isEmpty && decide (nextFocusIndex < index))
    vals 0

/-- `handleOtpPaste` (lines 344-399). -/
def handleOtpPaste (L : Nat) (vals : List String) (pastedText : String)
    (currentIndex : Int) : List String × List OtpEffect :=
  if currentIndex < 0 ∨ (L : Int) ≤ currentIndex then
    (vals, [OtpEffect.warn WarnTag.invalidPasteIndex])
  else
    let cleanedText := jsStripSpace pastedText
    if cleanedText.isEmpty then (vals, [])
    else
      let cur := currentIndex.toNat
      let r := otpPasteLoop L cur cleanedText.data 0 vals cur
      let focusEffect :=
        match findNextEmpty r.1 r.2 with
        | some nextEmptyIndex => OtpEffect.focusCell nextEmptyIndex
        | none =>
          if r.2 + 1 < L then OtpEffect.focusCell (r.2 + 1)
          else OtpEffect.blurCell r.2
      (r.1, [OtpEffect.callback (String.join r.1), focusEffect])

/-- `handleOtpChange` (lines 313-342).  Input of length above one is
routed to `handleOtpPaste`; otherwise the cell is overwritten, the
callback receives the joined code, and focus auto-advances on non-empty
input below the last cell. -/
def handleOtpChange (L : Nat) (vals : List String) (text : String)
    (index : Int) : List String × List OtpEffect :=
  if index < 0 ∨ (L : Int) ≤ index then
    (vals, [OtpEffect.warn WarnTag.invalidOtpIndex])
  else if 1 < text.length then
    handleOtpPaste L vals text index
  else
    let newValues := vals.set index.toNat text
    (newValues,
      [OtpEffect.callback (String.join newValues)] ++
        (if ¬ text.isEmpty ∧ index < (L : Int) - 1 then
          [OtpEffect.focusCell (index.toNat + 1)]
        else []))

/-- `handleOtpKeyPress` (lines 401-417): backspace on an empty cell above
index 0 requests focus on the previous cell. -/
def handleOtpKeyPress (L : Nat) (vals : List String) (key : String)
    (index : Int) : List OtpEffect :=
  if index < 0 ∨ (L : Int) ≤ index then
    [OtpEffect.warn WarnTag.invalidKeyPressIndex]
  else if key = "Backspace" then
    if vals.getD index.toNat "" = "" ∧ 0 < index then
      [OtpEffect.focusCell (index.toNat - 1)]
    else []
  else []

/-- `handleOtpFocus` (lines 419-423): an in-range index becomes the
focused index; an out-of-range index is silently ignored. -/
def handleOtpFocus (L : Nat) (otpFocusedIndex : Int) (index : Int) :
    Int × List OtpEffect :=
  if 0 ≤ index ∧ index < (L : Int) then (index, []) else (otpFocusedIndex, [])

/-! ## Configuration validation (lines 119-144 and 239-262)

`otpLength` is a JavaScript number, modelled as `ℚ` so that non-integer
configurations are expressible. -/

/-- The component's render mode discriminator (`type` prop). -/
inductive InputType
  | default
  | otp
  | split
deriving DecidableEq, Repr

/-- A split field descriptor (`SplitField` interface, lines 28-38). -/
structure SplitField where
  key : String
  placeholder : Option String := none
  flex : Option ℚ := none
  keyboardType : Option String := none
  autoCapitalize : Option String := none
  maxLength : Option Nat := none
  secureTextEntry : Option Bool := none
  editable : Option Bool := none
deriving DecidableEq, Repr

/-- `validateOtpLength` (lines 119-121): `Number.isInteger(length)` and
`1 ≤ length ≤ 20`. -/
def validateOtpLength (length : ℚ) : Bool :=
  decide (length.den = 1) && decide (1 ≤ length) && decide (length ≤ 20)

/-- `validateOtpValue` (lines 123-125): the seed string must not exceed
the configured length. -/
def validateOtpValue (value : String) (maxLength : ℚ) : Bool :=
  decide ((value.length : ℚ) ≤ maxLength)

/-- `validateSplitFields` (lines 127-144): non-empty list, pairwise
distinct keys, every key a non-empty string with non-blank trim. -/
def validateSplitFields (fields : List SplitField) : Bool :=
  if fields.isEmpty then false
  else if !decide (fields.map (fun f => f.key)).Nodup then false
  else fields.all (fun f => !f.key.isEmpty && decide (0 < (jsTrim f.key).length))

/-- The validation `useEffect` (lines 239-262): the list of warnings it
logs for a given mode, configured length, seed string and descriptor
list. -/
def validationEffect (type : InputType) (otpLength : ℚ) (otpValue : String)
    (splitFields : List SplitField) : List WarnTag :=
  (if type = InputType.otp then
    (if !validateOtpLength otpLength then [WarnTag.badOtpLength] else []) ++
      (if !otpValue.isEmpty && !validateOtpValue otpValue otpLength then
        [WarnTag.badOtpValue]
      else [])
  else []) ++
  (if type = InputType.split then
    (if !validateSplitFields splitFields then [WarnTag.badSplitFields] else [])
  else [])

/-- Equality of `Except` results is decidable when it is on both sides. -/
instance {ε α : Type} [DecidableEq ε] [DecidableEq α] :
    DecidableEq (Except ε α) := fun a b =>
  match a, b with
  | Except.ok x, Except.ok y =>
    if h : x = y then isTrue (by rw [h]) else isFalse (by simp [h])
  | Except.error x, Except.error y =>
    if h : x = y then isTrue (by rw [h]) else isFalse (by simp [h])
  | Except.ok _, Except.error _ => isFalse (by simp)
  | Except.error _, Except.ok _ => isFalse (by simp)

/-- `new Array(otpLength).fill("")`, the `otpValues` state initializer
(lines 228-230).  JavaScript `Array(len)` requires `len` to be an
integer in `[0, 2^32 - 1]` and otherwise throws a `RangeError`; the
fallible allocation is modelled with `Except`. -/
def otpValuesInit (otpLength : ℚ) : Except String (List String) :=
  if otpLength.den = 1 ∧ 0 ≤ otpLength ∧ otpLength ≤ 4294967295 then
    Except.ok (List.replicate otpLength.num.toNat "")
  else
    Except.error "RangeError"

/-! ## OTP state initialization from the seed prop (lines 265-281) -/

/-- The seeding loop of the OTP init `useEffect` (lines 274-277): write
character `i` of the seed into slot `i`. -/
def otpSeedLoop (vals : List String) : List Char → Nat → List String
  | [], _ => vals
  | c :: rest, i => otpSeedLoop (vals.set i (String.mk [c])) rest (i + 1)

/-- The `otpValues` update performed by the OTP init `useEffect` (lines
272-279) when `otpLength`, `type` or `otpValue` change: only when the
seed is non-empty and fits the configured length is the cell array
rebuilt (at the new length, from the seed); otherwise the current state
`cur` is left untouched. -/
def otpInitValuesEffect (otpLength : Nat) (otpValue : String)
    (cur : List String) : List String :=
  if !otpValue.isEmpty && decide (otpValue.length ≤ otpLength) then
    otpSeedLoop (List.replicate otpLength "") otpValue.data 0
  else cur

/-! ## Split change handler (lines 430-441)

The `splitValues` map (a JavaScript object) is modelled as a lookup
function `String → Option String`; the object spread
`\x7b...splitValues, [key]: text\x7d` becomes a pointwise override.  The
result's first component is `some (newValues, key, text)` exactly when
`onSplitChange` is invoked, with its arguments. -/

/-- `handleSplitChange` (lines 430-441). -/
def handleSplitChange (splitFields : List SplitField)
    (splitValues : String → Option String) (key text : String) :
    Option ((String → Option String) × String × String) × List WarnTag :=
  if (splitFields.find? (fun f => decide (f.key = key))) = none then
    (none, [WarnTag.invalidSplitKey])
  else
    (some (fun k => if k = key then some text else splitValues k, key, text),
      [])

/-! ## Style resolution (lines 451-476 and 718-743)

A style fragment is either a named entry of the component's
`StyleSheet`, an opaque caller-supplied override (of arbitrary payload
type `α`), or the empty object that `?? \x7b\x7d` substitutes for an
absent caller base override.  `.filter(Boolean)` keeps every fragment
because JavaScript objects are truthy. -/

/-- Named entries of the component's `StyleSheet` used by the container
style resolvers. -/
inductive SheetStyle
  | otpInputContainer
  | otpFocusedInputContainer
  | inputContainer
  | focusedInputContainer
  | disabledInputContainer
  | errorInputContainer
deriving DecidableEq, Repr

/-- One fragment of a composed style list. -/
inductive StyleFrag (α : Type)
  | sheet (s : SheetStyle)
  | caller (a : α)
  | emptyObj
deriving DecidableEq, Repr

/-- A conditional caller override: pushed only when supplied. -/
def optFrag {α : Type} : Option α → List (StyleFrag α)
  | some a => [StyleFrag.caller a]
  | none => []

/-- `getOtpInputContainerStyle` (lines 451-476), for the cell at
`index`. -/
def getOtpInputContainerStyle {α : Type} (otpFocusedIndex : Int)
    (index : Nat) (editable : Bool) (error : Option String)
    (otpInputContainerStyle otpFocusedInputContainerStyle
      disabledInputContainerStyle : Option α) : List (StyleFrag α) :=
  let style : List (StyleFrag α) :=
    [StyleFrag.sheet SheetStyle.otpInputContainer,
      match otpInputContainerStyle with
      | some a => StyleFrag.caller a
      | none => StyleFrag.emptyObj]
  let style :=
    if otpFocusedIndex = (index : Int) then
      style ++ [StyleFrag.sheet SheetStyle.otpFocusedInputContainer] ++
        optFrag otpFocusedInputContainerStyle
    else style
  let style :=
    if !editable then
      style ++ [StyleFrag.sheet SheetStyle.disabledInputContainer] ++
        optFrag disabledInputContainerStyle
    else style
  if jsTruthyStr error then
    style ++ [StyleFrag.sheet SheetStyle.errorInputContainer]
  else style

/-- `getInputContainerStyle` (lines 718-743), for the plain-mode field. -/
def getInputContainerStyle {α : Type} (isFocused : Bool) (editable : Bool)
    (error : Option String)
    (inputContainerStyle focusedInputContainerStyle
      disabledInputContainerStyle : Option α) : List (StyleFrag α) :=
  let style : List (StyleFrag α) :=
    [StyleFrag.sheet SheetStyle.inputContainer,
      match inputContainerStyle with
      | some a => StyleFrag.caller a
      | none => StyleFrag.emptyObj]
  let style :=
    if isFocused then
      style ++ [StyleFrag.sheet SheetStyle.focusedInputContainer] ++
        optFrag focusedInputContainerStyle
    else style
  let style :=
    if !editable then
      style ++ [StyleFrag.sheet SheetStyle.disabledInputContainer] ++
        optFrag disabledInputContainerStyle
    else style
  if jsTruthyStr error then
    style ++ [StyleFrag.sheet SheetStyle.errorInputContainer]
  else style

/-! ## Per-field props of the split inputs (lines 590-611) -/

/-- JavaScript `a || b` on an optional string field against a group
default: an absent or empty field value falls back. -/
def jsOrStr (fieldVal : Option String) (groupVal : String) : String :=
  match fieldVal with
  | some s => if s.isEmpty then groupVal else s
  | none => groupVal

/-- JavaScript `a || b` on an optional boolean field against a group
default: `undefined` and `false` both fall back. -/
def jsOrBool (fieldVal : Option Bool) (groupVal : Bool) : Bool :=
  match fieldVal with
  | some b => if b then true else groupVal
  | none => groupVal

/-- The five configurable props the split `TextInput` receives. -/
structure ResolvedSplitInputProps where
  keyboardType : String
  autoCapitalize : String
  maxLength : Option Nat
  secureTextEntry : Bool
  editable : Bool
deriving DecidableEq, Repr

/-- The prop resolution of `renderSplitInputs` (lines 603-609): keyboard
type, capitalization and secure flag use `||` against the group prop,
editable uses an explicit `undefined` test, and `maxLength` is passed
as `field.maxLength` alone (the group `maxLength` prop is in scope but
unused there). -/
def renderSplitInputProps (field : SplitField)
    (keyboardType autoCapitalize : String) (maxLength : Option Nat)
    (secureTextEntry editable : Bool) : ResolvedSplitInputProps :=
  { keyboardType := jsOrStr field.keyboardType keyboardType
    autoCapitalize := jsOrStr field.autoCapitalize autoCapitalize
    maxLength := field.maxLength
    secureTextEntry := jsOrBool field.secureTextEntry secureTextEntry
    editable :=
      match field.editable with
      | some b => b
      | none => editable }

/-! ## Specification-side definitions -/

/-- Specification predicate: `j` is the first empty cell of `vals` whose
index lies strictly beyond `last` (the last-written index of a paste). -/
def isFirstEmptyAfter (vals : List String) (last j : Nat) : Prop :=
  last < j ∧ j < vals.length ∧ vals.getD j "" = "" ∧
    ∀ k, last < k → k < j → vals.getD k "" ≠ ""

/-- Specification-side composition order for a container style: base
sheet entry, caller base override slot, focused overlay followed by its
caller override, disabled overlay followed by its caller override, and
the error overlay last.  Both container style resolvers of the source
are proved equal to instances of this template. -/
def composedContainerStyle {α : Type} (base : SheetStyle)
    (callerBase : Option α) (focused : Bool) (focusedSheet : SheetStyle)
    (callerFocused : Option α) (disabled : Bool) (callerDisabled : Option α)
    (hasError : Bool) : List (StyleFrag α) :=
  [StyleFrag.sheet base,
    match callerBase with
    | some a => StyleFrag.caller a
    | none => StyleFrag.emptyObj] ++
  (if focused then
    [StyleFrag.sheet focusedSheet] ++ optFrag callerFocused
  else []) ++
  (if disabled then
    [StyleFrag.sheet SheetStyle.disabledInputContainer] ++
      optFrag callerDisabled
  else []) ++
  (if hasError then [StyleFrag.sheet SheetStyle.errorInputContainer] else [])

/-! ## List helper lemmas -/

theorem getD_set_ne (l : List String) (i j : Nat) (a : String) (h : i ≠ j) :
    (l.set i a).getD j "" = l.getD j "" := by
  simp [List.getD_eq_getElem?_getD, List.getElem?_set_ne h]

theorem getD_set_self_of_lt (l : List String) (i : Nat) (a : String)
    (h : i < l.length) : (l.set i a).getD i "" = a := by
  simp [List.getD_eq_getElem?_getD, List.getElem?_set_self, h]

theorem getD_of_length_le (l : List String) (j : Nat) (h : l.length ≤ j) :
    l.getD j "" = "" := by
  simp [List.getD_eq_getElem?_getD, List.getElem?_eq_none h]

theorem getD_replicate_empty (n j : Nat) :
    (List.replicate n ("" : String)).getD j "" = "" := by
  by_cases h : j < n
  · simp [List.getD_eq_getElem?_getD, List.getElem?_replicate, h]
  · exact getD_of_length_le _ _ (by simpa using Nat.le_of_not_lt h)

/-! ## Characterization of the paste-distribution loop -/

theorem otpPasteLoop_length (L cur : Nat) (chars : List Char) :
    ∀ (i : Nat) (vals : List String) (nfi : Nat),
      (otpPasteLoop L cur chars i vals nfi).1.length = vals.length := by
  induction chars with
  | nil => intro i vals nfi; rfl
  | cons c rest ih =>
    intro i vals nfi
    simp only [otpPasteLoop]
    split
    · rw [ih]; simp
    · rfl

theorem otpPasteLoop_getD (L cur : Nat) (chars : List Char) :
    ∀ (i : Nat) (vals : List String) (nfi j : Nat), vals.length = L →
      (otpPasteLoop L cur chars i vals nfi).1.getD j "" =
        (if cur + i ≤ j ∧ j < min (cur + i + chars.length) L then
          String.mk [chars.getD (j - (cur + i)) ' ']
        else vals.getD j "") := by
  induction chars with
  | nil =>
    intro i vals nfi j hlen
    have hcond :
        ¬ (cur + i ≤ j ∧ j < min (cur + i + ([] : List Char).length) L) := by
      simp only [List.length_nil]; omega
    rw [if_neg hcond]; rfl
  | cons c rest ih =>
    intro i vals nfi j hlen
    simp only [otpPasteLoop]
    split
    · rename_i hlt
      rw [ih (i + 1) _ _ j (by simpa using hlen)]
      by_cases h1 : cur + (i + 1) ≤ j ∧ j < min (cur + (i + 1) + rest.length) L
      · rw [if_pos h1, if_pos (by simp only [List.length_cons]; omega)]
        have hk : j - (cur + i) = (j - (cur + (i + 1))) + 1 := by omega
        rw [hk, List.getD_cons_succ]
      · rw [if_neg h1]
        by_cases h2 : j = cur + i
        · subst h2
          rw [getD_set_self_of_lt _ _ _ (by omega),
            if_pos (by simp only [List.length_cons]; omega)]
          simp
        · rw [getD_set_ne _ _ _ _ (fun h => h2 h.symm),
            if_neg (by simp only [List.length_cons]; omega)]
    · rename_i hge
      rw [if_neg (by simp only [List.length_cons]; omega)]

theorem otpPasteLoop_snd (L cur : Nat) (chars : List Char) :
    ∀ (i : Nat) (vals : List String) (nfi : Nat),
      (otpPasteLoop L cur chars i vals nfi).2 =
        (if 0 < chars.length ∧ cur + i < L then
          cur + i + min chars.length (L - (cur + i)) - 1
        else nfi) := by
  induction chars with
  | nil =>
    intro i vals nfi
    rw [if_neg (by simp)]; rfl
  | cons c rest ih =>
    intro i vals nfi
    simp only [otpPasteLoop]
    split
    · rename_i hlt
      rw [ih (i + 1)]
      split <;> rename_i h2 <;>
        · rw [if_pos (by simp only [List.length_cons]; omega)]
          simp only [List.length_cons] at *
          omega
    · rename_i hge
      rw [if_neg (by omega)]

/-! ## Characterization of the next-empty-cell search -/

theorem findIndexAux_eq_some (p : String → Nat → Bool) :
    ∀ (l : List String) (idx j : Nat), findIndexAux p l idx = some j →
      idx ≤ j ∧ j - idx < l.length ∧ p (l.getD (j - idx) "") j = true ∧
        ∀ k, idx ≤ k → k < j → p (l.getD (k - idx) "") k = false := by
  intro l
  induction l with
  | nil => intro idx j h; simp [findIndexAux] at h
  | cons v rest ih =>
    intro idx j h
    simp only [findIndexAux] at h
    split at h
    · rename_i hp
      obtain rfl : idx = j := by simpa using h
      refine ⟨Nat.le_refl _, by simp, by simpa using hp, ?_⟩
      intro k hk1 hk2; omega
    · rename_i hp
      obtain ⟨h1, h2, h3, h4⟩ := ih (idx + 1) j h
      have hj : j - idx = (j - (idx + 1)) + 1 := by omega
      refine ⟨by omega, by simp only [List.length_cons]; omega,
        by rw [hj, List.getD_cons_succ]; exact h3, ?_⟩
      intro k hk1 hk2
      by_cases hk : k = idx
      · subst hk
        simpa using Bool.of_not_eq_true hp
      · have hkk : k - idx = (k - (idx + 1)) + 1 := by omega
        rw [hkk, List.getD_cons_succ]
        exact h4 k (by omega) hk2

theorem findIndexAux_eq_none (p : String → Nat → Bool) :
    ∀ (l : List String) (idx : Nat), findIndexAux p l idx = none →
      ∀ k, idx ≤ k → k - idx < l.length → p (l.getD (k - idx) "") k = false := by
  intro l
  induction l with
  | nil => intro idx _ k _ hk; simp at hk
  | cons v rest ih =>
    intro idx h k hk1 hk2
    simp only [findIndexAux] at h
    split at h
    · exact absurd h (by simp)
    · rename_i hp
      by_cases hkidx : k = idx
      · subst hkidx
        simpa using Bool.of_not_eq_true hp
      · have hkk : k - idx = (k - (idx + 1)) + 1 := by omega
        rw [hkk, List.getD_cons_succ]
        refine ih (idx + 1) h k (by omega) ?_
        simp only [List.length_cons] at hk2; omega

theorem findNextEmpty_eq_some (vals : List String) (nfi j : Nat)
    (h : findNextEmpty vals nfi = some j) : isFirstEmptyAfter vals nfi j := by
  obtain ⟨-, h2, h3, h4⟩ := findIndexAux_eq_some _ vals 0 j h
  simp only [Nat.sub_zero] at h2 h3 h4
  simp only [Bool.and_eq_true, String.isEmpty_iff, decide_eq_true_eq] at h3
  refine ⟨h3.2, h2, h3.1, ?_⟩
  intro k hk1 hk2 hke
  have h5 := h4 k (Nat.zero_le _) hk2
  rw [hke] at h5
  simp [hk1] at h5
  exact absurd h5 (by decide)

theorem findNextEmpty_eq_none (vals : List String) (nfi : Nat)
    (h : findNextEmpty vals nfi = none) :
    ∀ j, ¬ isFirstEmptyAfter vals nfi j := by
  intro j hj
  obtain ⟨h1, h2, h3, -⟩ := hj
  have h5 := findIndexAux_eq_none _ vals 0 h j (Nat.zero_le _) (by simpa using h2)
  simp only [Nat.sub_zero] at h5
  rw [h3] at h5
  simp [h1] at h5
  exact absurd h5 (by decide)

/-- In-range non-empty paste: the new cell state is the result of the
distribution loop. -/
theorem handleOtpPaste_fst_of_inrange (L : Nat) (vals : List String)
    (P : String) (i : Int) (h0 : 0 ≤ i) (hi : i < (L : Int))
    (hNE : (jsStripSpace P).isEmpty = false) :
    (handleOtpPaste L vals P i).1 =
      (otpPasteLoop L i.toNat (jsStripSpace P).data 0 vals i.toNat).1 := by
  simp only [handleOtpPaste]
  rw [if_neg (by omega)]
  simp [hNE]

/-- In-range non-empty paste: the effect list is the change callback
followed by the focus decision over the loop's results. -/
theorem handleOtpPaste_snd_of_inrange (L : Nat) (vals : List String)
    (P : String) (i : Int) (h0 : 0 ≤ i) (hi : i < (L : Int))
    (hNE : (jsStripSpace P).isEmpty = false) :
    (handleOtpPaste L vals P i).2 =
      [OtpEffect.callback (String.join
          (otpPasteLoop L i.toNat (jsStripSpace P).data 0 vals i.toNat).1),
        (match findNextEmpty
            (otpPasteLoop L i.toNat (jsStripSpace P).data 0 vals i.toNat).1
            (otpPasteLoop L i.toNat (jsStripSpace P).data 0 vals i.toNat).2
          with
        | some j => OtpEffect.focusCell j
        | none =>
          if (otpPasteLoop L i.toNat (jsStripSpace P).data 0 vals
                i.toNat).2 + 1 < L then
            OtpEffect.focusCell
              ((otpPasteLoop L i.toNat (jsStripSpace P).data 0 vals
                i.toNat).2 + 1)
          else
            OtpEffect.blurCell
              (otpPasteLoop L i.toNat (jsStripSpace P).data 0 vals
                i.toNat).2)] := by
  simp only [handleOtpPaste]
  rw [if_neg (by omega)]
  simp [hNE]

/-- The stripped paste is non-empty exactly when its character list has
positive length. -/
theorem jsStripSpace_isEmpty_false {P : String}
    (hNE : (jsStripSpace P).isEmpty = false) :
    0 < (jsStripSpace P).data.length := by
  by_contra hc
  have h0 : (jsStripSpace P).data = [] := List.length_eq_zero.mp (by omega)
  have he : jsStripSpace P = String.mk [] := by rw [← h0]
  rw [he] at hNE
  exact absurd hNE (by decide)

/-- **C1.**  For every configured OTP length `L`, every cell state of
that length, and every pasted string `P` delivered at an in-range cell
index `i`: with `S` the whitespace-stripped paste and `K = |S|`, an
empty `S` makes the paste a no-op; otherwise cells `i` through
`min (i + K) L - 1` hold the first `min K (L - i)` characters of `S` in
order, every other cell is unchanged (so excess characters past the
array end are dropped), and change-handler input of length above one is
routed to the paste handler. -/
theorem otp_paste_distributes_cells (L : Nat) (vals : List String)
    (P : String) (i : Int) (hlen : vals.length = L) (h0 : 0 ≤ i)
    (hi : i < (L : Int)) :
    ((jsStripSpace P).isEmpty = true →
      handleOtpPaste L vals P i = (vals, [])) ∧
    ((jsStripSpace P).isEmpty = false →
      (handleOtpPaste L vals P i).1.length = L ∧
      ∀ j : Nat, (handleOtpPaste L vals P i).1.getD j "" =
        (if i.toNat ≤ j ∧ j < min (i.toNat + (jsStripSpace P).data.length) L
          then String.mk [(jsStripSpace P).data.getD (j - i.toNat) ' ']
        else vals.getD j "")) ∧
    (1 < P.length → handleOtpChange L vals P i = handleOtpPaste L vals P i) :=
  by
  refine ⟨?_, ?_, ?_⟩
  · intro hE
    simp only [handleOtpPaste]
    rw [if_neg (by omega)]
    simp [hE]
  · intro hNE
    rw [handleOtpPaste_fst_of_inrange L vals P i h0 hi hNE]
    constructor
    · rw [otpPasteLoop_length, hlen]
    · intro j
      rw [otpPasteLoop_getD L i.toNat (jsStripSpace P).data 0 vals i.toNat j
        hlen]
      simp only [Nat.add_zero]
  · intro hP
    simp only [handleOtpChange]
    rw [if_neg (by omega), if_pos hP]

/-- **C2.**  After every non-empty paste at an in-range index the effect
list is the change callback followed by one focus action chosen as: the
first empty cell strictly beyond the last-written index when one exists,
else the cell after the last-written index when it is below `L`, else a
blur of the last cell. -/
theorem otp_paste_focus_choice (L : Nat) (vals : List String) (P : String)
    (i : Int) (hlen : vals.length = L) (h0 : 0 ≤ i) (hi : i < (L : Int))
    (hNE : (jsStripSpace P).isEmpty = false) :
    ∃ e, (handleOtpPaste L vals P i).2 =
        [OtpEffect.callback (String.join (handleOtpPaste L vals P i).1), e] ∧
      ((∃ j, isFirstEmptyAfter (handleOtpPaste L vals P i).1
            (i.toNat + min (jsStripSpace P).data.length (L - i.toNat) - 1) j ∧
          e = OtpEffect.focusCell j) ∨
        ((∀ j, ¬ isFirstEmptyAfter (handleOtpPaste L vals P i).1
            (i.toNat + min (jsStripSpace P).data.length (L - i.toNat) - 1) j) ∧
          ((i.toNat + min (jsStripSpace P).data.length (L - i.toNat) - 1) + 1
              < L ∧
            e = OtpEffect.focusCell
              ((i.toNat + min (jsStripSpace P).data.length (L - i.toNat) - 1)
                + 1) ∨
            (L ≤ (i.toNat + min (jsStripSpace P).data.length (L - i.toNat)
                - 1) + 1 ∧
              e = OtpEffect.blurCell
                (i.toNat + min (jsStripSpace P).data.length (L - i.toNat)
                  - 1))))) := by
  have hK := jsStripSpace_isEmpty_false hNE
  have hcur : i.toNat < L := by omega
  have hsnd := otpPasteLoop_snd L i.toNat (jsStripSpace P).data 0 vals i.toNat
  rw [if_pos (by constructor <;> omega)] at hsnd
  simp only [Nat.add_zero] at hsnd
  rw [handleOtpPaste_snd_of_inrange L vals P i h0 hi hNE,
    handleOtpPaste_fst_of_inrange L vals P i h0 hi hNE]
  rw [hsnd]
  cases hfind : findNextEmpty
      (otpPasteLoop L i.toNat (jsStripSpace P).data 0 vals i.toNat).1
      (i.toNat + min (jsStripSpace P).data.length (L - i.toNat) - 1) with
  | some j =>
    refine ⟨OtpEffect.focusCell j, rfl, Or.inl ⟨j, ?_, rfl⟩⟩
    exact findNextEmpty_eq_some _ _ _ hfind
  | none =>
    have hnone := findNextEmpty_eq_none _ _ hfind
    by_cases hlt :
        (i.toNat + min (jsStripSpace P).data.length (L - i.toNat) - 1) + 1 < L
    · exact ⟨_, by rw [if_pos hlt], Or.inr ⟨hnone, Or.inl ⟨hlt, rfl⟩⟩⟩
    · exact ⟨_, by rw [if_neg hlt], Or.inr ⟨hnone, Or.inr ⟨by omega, rfl⟩⟩⟩

/-- Witness for C1: the spec example `L = 6`, paste `"123456"` at
index 0 fills every cell. -/
theorem otp_paste_distributes_cells_witness :
    (handleOtpPaste 6 ["", "", "", "", "", ""] "123456" 0).1 =
      ["1", "2", "3", "4", "5", "6"] := by
  have h := otp_paste_distributes_cells 6 ["", "", "", "", "", ""] "123456" 0
    (by decide) (by decide) (by decide)
  decide

/-- Witness for C2: the spec example `L = 4`, cells `[9,_,_,_]`, paste
`"5 6"` at index 1 yields cells `[9,5,6,_]` and focus on index 3. -/
theorem otp_paste_focus_choice_witness :
    (handleOtpPaste 4 ["9", "", "", ""] "5 6" 1).2 =
      [OtpEffect.callback "956", OtpEffect.focusCell 3] := by
  have h := otp_paste_focus_choice 4 ["9", "", "", ""] "5 6" 1 (by decide)
    (by decide) (by decide) (by decide)
  decide

/-! ## Characterization of the seed-initialization loop -/

theorem otpSeedLoop_length :
    ∀ (chars : List Char) (i : Nat) (vals : List String),
      (otpSeedLoop vals chars i).length = vals.length := by
  intro chars
  induction chars with
  | nil => intro i vals; rfl
  | cons c rest ih =>
    intro i vals
    simp only [otpSeedLoop]
    rw [ih]
    simp

theorem otpSeedLoop_getD :
    ∀ (chars : List Char) (i : Nat) (vals : List String) (j : Nat),
      (otpSeedLoop vals chars i).getD j "" =
        (if i ≤ j ∧ j < i + chars.length ∧ j < vals.length then
          String.mk [chars.getD (j - i) ' ']
        else vals.getD j "") := by
  intro chars
  induction chars with
  | nil =>
    intro i vals j
    rw [if_neg (by simp only [List.length_nil]; omega)]
    rfl
  | cons c rest ih =>
    intro i vals j
    simp only [otpSeedLoop]
    rw [ih (i + 1) _ j]
    simp only [List.length_set, List.length_cons]
    by_cases hj : j < vals.length
    · by_cases h1 : i + 1 ≤ j ∧ j < i + 1 + rest.length ∧ j < vals.length
      · rw [if_pos h1, if_pos (by omega)]
        have hk : j - i = (j - (i + 1)) + 1 := by omega
        rw [hk, List.getD_cons_succ]
      · rw [if_neg h1]
        by_cases h2 : j = i
        · subst h2
          rw [getD_set_self_of_lt _ _ _ hj, if_pos (by omega)]
          simp
        · rw [getD_set_ne _ _ _ _ (fun h => h2 h.symm), if_neg (by omega)]
    · rw [if_neg (by omega), if_neg (by omega),
        getD_of_length_le _ _ (by rw [List.length_set]; omega),
        getD_of_length_le _ _ (by omega)]

/-- **C4 (counterexample).**  With the default empty seed prop, changing
the configured length from 4 to 6 leaves the cell array at its stale
length 4: it is *not* resized to the new length as the claim states. -/
theorem otp_resize_counterexample :
    ¬ (otpInitValuesEffect 6 "" ["1", "2", "3", "4"]).length = 6 := by decide

/-- **C4 (amended).**  When `otpLength` or the seed prop change in OTP
mode: if the seed is non-empty and fits the new length, the cell array
is rebuilt at the new length holding the seed characters followed by
empty slots — discarding the previous cell values; otherwise (empty
seed, or seed longer than the new length) the state is left exactly as
it was, not resized. -/
theorem otp_init_effect_characterization (L : Nat) (v : String)
    (cur : List String) :
    (v.isEmpty = false → v.length ≤ L →
      (otpInitValuesEffect L v cur).length = L ∧
      ∀ j : Nat, (otpInitValuesEffect L v cur).getD j "" =
        (if j < v.length then String.mk [v.data.getD j ' '] else "")) ∧
    (v.isEmpty = true ∨ L < v.length → otpInitValuesEffect L v cur = cur) :=
  by
  constructor
  · intro hne hle
    have hcond : (!v.isEmpty && decide (v.length ≤ L)) = true := by
      simp [hne, hle]
    constructor
    · rw [otpInitValuesEffect, if_pos hcond, otpSeedLoop_length]
      simp
    · intro j
      rw [otpInitValuesEffect, if_pos hcond, otpSeedLoop_getD]
      simp only [List.length_replicate, Nat.zero_le, true_and, Nat.zero_add,
        Nat.sub_zero]
      have hlen : v.data.length = v.length := rfl
      by_cases hj : j < v.length
      · rw [if_pos (by omega), if_pos hj]
      · rw [if_neg (by omega), if_neg hj, getD_replicate_empty]
  · intro hcase
    have hcond : (!v.isEmpty && decide (v.length ≤ L)) = false := by
      rcases hcase with h | h
      · simp [h]
      · simp [h, Nat.not_le.mpr h]
    rw [otpInitValuesEffect, if_neg (by rw [hcond]; exact Bool.false_ne_true)]

/-- Witness for C4 (amended): length change from 4 to 6 with seed "12"
rebuilds six cells from the seed. -/
theorem otp_init_effect_witness :
    (otpInitValuesEffect 6 "12" ["9", "9", "9", "9"]).length = 6 := by
  have h := otp_init_effect_characterization 6 "12" ["9", "9", "9", "9"]
  exact (h.1 (by decide) (by decide)).1

/-- **C9.**  A backspace key press on an empty cell at in-range index
`i > 0` requests focus on cell `i - 1`; on an empty cell at index 0 it
is a no-op, so focus never moves below index 0. -/
theorem otp_backspace_focus (L : Nat) (vals : List String) (i : Int)
    (h0 : 0 ≤ i) (hi : i < (L : Int)) (hempty : vals.getD i.toNat "" = "") :
    (0 < i → handleOtpKeyPress L vals "Backspace" i =
      [OtpEffect.focusCell (i.toNat - 1)]) ∧
    (i = 0 → handleOtpKeyPress L vals "Backspace" i = []) := by
  constructor
  · intro hpos
    simp only [handleOtpKeyPress]
    rw [if_neg (by omega)]
    have hempty2 : vals[i.toNat]?.getD "" = "" := by
      rw [← List.getD_eq_getElem?_getD]; exact hempty
    simp [hempty2, hpos]
  · intro hz
    subst hz
    simp only [handleOtpKeyPress]
    rw [if_neg (by omega)]
    simp

/-- Witness for C9: cells `[9,_,_,_]`, backspace on the empty cell 1
moves focus to cell 0. -/
theorem otp_backspace_focus_witness :
    handleOtpKeyPress 4 ["9", "", "", ""] "Backspace" 1 =
      [OtpEffect.focusCell 0] :=
  (otp_backspace_focus 4 ["9", "", "", ""] 1 (by decide) (by decide)
    (by decide)).1 (by decide)

/-- **C10.**  At an in-range index, a change event carrying the empty
string clears the cell and invokes the change callback with the joined
aggregate, with no focus movement; for inputs of length at most one, a
focus advance happens exactly when the input is non-empty and the index
is below the last cell. -/
theorem otp_empty_change (L : Nat) (vals : List String) (i : Int)
    (h0 : 0 ≤ i) (hi : i < (L : Int)) :
    handleOtpChange L vals "" i =
      (vals.set i.toNat "",
        [OtpEffect.callback (String.join (vals.set i.toNat ""))]) ∧
    (∀ text : String, text.length ≤ 1 →
      ((∃ j, OtpEffect.focusCell j ∈ (handleOtpChange L vals text i).2) ↔
        (¬ text.isEmpty = true ∧ i < (L : Int) - 1))) := by
  constructor
  · simp only [handleOtpChange]
    rw [if_neg (by omega), if_neg (by decide)]
    simp
    intro h
    exact absurd h (by decide)
  · intro text ht
    simp only [handleOtpChange]
    rw [if_neg (by omega), if_neg (by omega)]
    by_cases hc : ¬ text.isEmpty = true ∧ i < (L : Int) - 1
    · rw [if_pos hc]
      simp only [List.append_eq, List.mem_append, List.mem_singleton,
        List.mem_cons, List.not_mem_nil]
      constructor
      · intro _; exact hc
      · intro _; exact ⟨i.toNat + 1, by simp⟩
    · rw [if_neg hc]
      simp only [List.append_nil]
      constructor
      · intro ⟨j, hj⟩
        simp at hj
      · intro h; exact absurd h hc

/-- Witness for C10: clearing cell 1 of `[7,8,_,_]` fires the callback
with the remaining aggregate and requests no focus change. -/
theorem otp_empty_change_witness :
    handleOtpChange 4 ["7", "8", "", ""] "" 1 =
      (["7", "", "", ""], [OtpEffect.callback "7"]) := by
  have h := otp_empty_change 4 ["7", "8", "", ""] 1 (by decide) (by decide)
  decide

/-- **C7 (counterexample).**  An out-of-range focus index is a silent
no-op: `handleOtpFocus` produces no developer warning (its effect list
is empty), contradicting the claim that every OTP operation warns on an
out-of-range index. -/
theorem otp_focus_out_of_range_silent : handleOtpFocus 4 2 10 = (2, []) := by
  decide

/-- **C7 (amended).**  Given an out-of-range index, the change, paste
and key-press handlers are no-ops that emit exactly one developer
warning, while the focus handler is a silent no-op that leaves the
focused index unchanged and emits nothing; no handler fails. -/
theorem otp_out_of_range_ops (L : Nat) (vals : List String)
    (text key P : String) (fi i : Int) (h : i < 0 ∨ (L : Int) ≤ i) :
    handleOtpChange L vals text i =
      (vals, [OtpEffect.warn WarnTag.invalidOtpIndex]) ∧
    handleOtpPaste L vals P i =
      (vals, [OtpEffect.warn WarnTag.invalidPasteIndex]) ∧
    handleOtpKeyPress L vals key i =
      [OtpEffect.warn WarnTag.invalidKeyPressIndex] ∧
    handleOtpFocus L fi i = (fi, []) := by
  refine ⟨?_, ?_, ?_, ?_⟩
  · simp only [handleOtpChange]; rw [if_pos h]
  · simp only [handleOtpPaste]; rw [if_pos h]
  · simp only [handleOtpKeyPress]; rw [if_pos h]
  · simp only [handleOtpFocus]; rw [if_neg (by omega)]

/-- Witness for C7 (amended) at index 9 of a 4-cell grid. -/
theorem otp_out_of_range_ops_witness :
    handleOtpChange 4 ["", "", "", ""] "7" 9 =
      (["", "", "", ""], [OtpEffect.warn WarnTag.invalidOtpIndex]) ∧
    handleOtpPaste 4 ["", "", "", ""] "12" 9 =
      (["", "", "", ""], [OtpEffect.warn WarnTag.invalidPasteIndex]) ∧
    handleOtpKeyPress 4 ["", "", "", ""] "Backspace" 9 =
      [OtpEffect.warn WarnTag.invalidKeyPressIndex] ∧
    handleOtpFocus 4 0 9 = (0, []) :=
  otp_out_of_range_ops 4 ["", "", "", ""] "7" "Backspace" "12" 0 9
    (by decide)

/-- **C3 (counterexample).**  A negative configured OTP length makes the
`otpValues` state initializer `new Array(otpLength).fill("")` throw a
`RangeError` during the first render — before the validation effect can
log any diagnostic — contradicting the claim that no exception is ever
raised to the caller for malformed configuration. -/
theorem otp_values_init_throws :
    otpValuesInit (-1) = Except.error "RangeError" := by decide

/-- **C3 (amended).**  Malformed configurations are handled as follows:
an integer length in `[0, 2^32 - 1]` allocates the cell state and render
proceeds (zero and above-20 integer lengths additionally log the
length diagnostic); a negative or non-integer length throws a
`RangeError` from the state allocation; an over-long seed, an invalid
split descriptor list, an unknown split key, and an out-of-range index
to the change/paste/key-press handlers each log a developer diagnostic
and are non-fatal no-ops; an out-of-range focus index is a silent
no-op without a diagnostic. -/
theorem validation_diagnostics :
    (∀ len : ℚ, len.den = 1 → 0 ≤ len → len ≤ 4294967295 →
      otpValuesInit len = Except.ok (List.replicate len.num.toNat "")) ∧
    (∀ len : ℚ, len < 0 ∨ len.den ≠ 1 →
      otpValuesInit len = Except.error "RangeError") ∧
    (∀ (len : ℚ) (v : String) (fs : List SplitField),
      validateOtpLength len = false →
        validationEffect InputType.otp len v fs ≠ []) ∧
    (∀ (len : ℚ) (v : String) (fs : List SplitField),
      len < (v.length : ℚ) → validationEffect InputType.otp len v fs ≠ []) ∧
    (∀ (len : ℚ) (v : String) (fs : List SplitField),
      validateSplitFields fs = false →
        validationEffect InputType.split len v fs ≠ []) ∧
    (∀ (fields : List SplitField) (m : String → Option String)
        (key text : String),
      fields.find? (fun f => decide (f.key = key)) = none →
        handleSplitChange fields m key text =
          (none, [WarnTag.invalidSplitKey])) ∧
    (∀ (L : Nat) (vals : List String) (text : String) (i : Int),
      i < 0 ∨ (L : Int) ≤ i →
        handleOtpChange L vals text i =
          (vals, [OtpEffect.warn WarnTag.invalidOtpIndex]) ∧
        handleOtpPaste L vals text i =
          (vals, [OtpEffect.warn WarnTag.invalidPasteIndex]) ∧
        handleOtpKeyPress L vals text i =
          [OtpEffect.warn WarnTag.invalidKeyPressIndex]) ∧
    (∀ (L : Nat) (fi i : Int), i < 0 ∨ (L : Int) ≤ i →
      handleOtpFocus L fi i = (fi, [])) := by
  refine ⟨?_, ?_, ?_, ?_, ?_, ?_, ?_, ?_⟩
  · intro len h1 h2 h3
    rw [otpValuesInit, if_pos ⟨h1, h2, h3⟩]
  · intro len h
    rw [otpValuesInit, if_neg]
    rcases h with h | h
    · intro hcon; exact absurd hcon.2.1 (by exact not_le.mpr h)
    · intro hcon; exact absurd hcon.1 h
  · intro len v fs h
    simp [validationEffect, h]
  · intro len v fs hlt
    by_cases hv : validateOtpLength len = true
    · have hle : (1 : ℚ) ≤ len := by
        simp only [validateOtpLength, Bool.and_eq_true, decide_eq_true_eq]
          at hv
        exact hv.1.2
      have hvalue : validateOtpValue v len = false := by
        simp only [validateOtpValue, decide_eq_false_iff_not]
        exact not_le.mpr hlt
      have hne : v.isEmpty = false := by
        cases he : v.isEmpty
        · rfl
        · exfalso
          rw [String.isEmpty_iff] at he
          rw [he] at hlt
          norm_num at hlt
          exact absurd (hle.trans hlt.le) (by norm_num)
      simp [validationEffect, hv, hvalue, hne]
    · have hv' : validateOtpLength len = false := by
        cases hvv : validateOtpLength len
        · rfl
        · exact absurd hvv hv
      simp [validationEffect, hv']
  · intro len v fs h
    simp [validationEffect, h]
  · intro fields m key text h
    rw [handleSplitChange, if_pos h]
  · intro L vals text i h
    refine ⟨?_, ?_, ?_⟩
    · simp only [handleOtpChange]; rw [if_pos h]
    · simp only [handleOtpPaste]; rw [if_pos h]
    · simp only [handleOtpKeyPress]; rw [if_pos h]
  · intro L fi i h
    simp only [handleOtpFocus]
    rw [if_neg (by omega)]

/-- Witness for C3 (amended): a zero length allocates an empty cell
array yet logs the length diagnostic. -/
theorem validation_diagnostics_witness :
    otpValuesInit 0 = Except.ok [] ∧
    validationEffect InputType.otp 0 "" [] ≠ [] := by
  have h := validation_diagnostics
  exact ⟨by simpa using h.1 0 (by decide) (by decide) (by decide),
    h.2.2.1 0 "" [] (by decide)⟩

/-- **C5.**  A split edit on a key present in the descriptors invokes
the change callback exactly once, with the caller-supplied map
overridden at that key (every other key keeping its previous value)
plus the changed key and value; an edit on an absent key invokes no
callback and logs a developer warning. -/
theorem split_change_callback (fields : List SplitField)
    (m : String → Option String) (key text : String) :
    (key ∈ fields.map (fun f => f.key) →
      ∃ m' : String → Option String,
        handleSplitChange fields m key text = (some (m', key, text), []) ∧
        m' key = some text ∧ ∀ k, k ≠ key → m' k = m k) ∧
    (key ∉ fields.map (fun f => f.key) →
      handleSplitChange fields m key text =
        (none, [WarnTag.invalidSplitKey])) := by
  have hiff : fields.find? (fun f => decide (f.key = key)) = none ↔
      key ∉ fields.map (fun f => f.key) := by
    rw [List.find?_eq_none]
    simp [List.mem_map, eq_comm]
  constructor
  · intro hmem
    rw [handleSplitChange, if_neg (fun hn => absurd hmem (hiff.mp hn))]
    refine ⟨fun k => if k = key then some text else m k, rfl, by simp, ?_⟩
    intro k hk
    simp [hk]
  · intro hnm
    rw [handleSplitChange, if_pos (hiff.mpr hnm)]

/-- Witness for C5: the spec example — descriptors `mm`, `dd`, edit
`mm` to `"07"` over the map holding `dd = "15"`; the callback receives
both keys with `mm` updated. -/
theorem split_change_callback_witness :
    (handleSplitChange [{ key := "mm" }, { key := "dd" }]
        (fun k => if k = "dd" then some "15" else none) "mm" "07").2 = [] ∧
    ((handleSplitChange [{ key := "mm" }, { key := "dd" }]
        (fun k => if k = "dd" then some "15" else none) "mm" "07").1.map
      (fun p => (p.1 "mm", p.1 "dd", p.2.1, p.2.2))) =
      some (some "07", some "15", "mm", "07") := by
  obtain ⟨m', heq, hk, ho⟩ :=
    (split_change_callback [{ key := "mm" }, { key := "dd" }]
      (fun k => if k = "dd" then some "15" else none) "mm" "07").1 (by decide)
  rw [heq]
  refine ⟨rfl, ?_⟩
  have hdd := ho "dd" (by decide)
  simp only [if_pos rfl] at hdd
  simp [hk, hdd]

/-- **C6 (counterexample).**  With an error present, a caller base
override supplied, the cell unfocused and editable: the caller override
appears in the composed list but the *last* fragment is the error
overlay — the caller override is not last, contradicting the claimed
precedence order base, state overlay, error overlay, caller override
last. -/
theorem container_style_caller_not_last :
    StyleFrag.caller "ov" ∈
      getOtpInputContainerStyle (α := String) 0 1 true (some "e") (some "ov")
        none none ∧
    (getOtpInputContainerStyle (α := String) 0 1 true (some "e") (some "ov")
        none none).getLast? =
      some (StyleFrag.sheet SheetStyle.errorInputContainer) := by decide

/-- **C6 (amended).**  Both container style resolvers are pure functions
of the focus state, editable flag, error presence and overrides, and
compose in the order: base sheet entry, caller base override slot,
focused overlay followed by its caller override, disabled overlay
followed by its caller override, and the error overlay last. -/
theorem container_style_order {α : Type} (otpFocusedIndex : Int)
    (index : Nat) (isFocused editable : Bool) (error : Option String)
    (o1 o2 o3 p1 p2 p3 : Option α) :
    getOtpInputContainerStyle otpFocusedIndex index editable error o1 o2 o3 =
      composedContainerStyle SheetStyle.otpInputContainer o1
        (decide (otpFocusedIndex = (index : Int)))
        SheetStyle.otpFocusedInputContainer o2 (!editable) o3
        (jsTruthyStr error) ∧
    getInputContainerStyle isFocused editable error p1 p2 p3 =
      composedContainerStyle SheetStyle.inputContainer p1 isFocused
        SheetStyle.focusedInputContainer p2 (!editable) p3
        (jsTruthyStr error) := by
  constructor
  · by_cases hf : otpFocusedIndex = (index : Int) <;>
      cases editable <;>
        cases herr : jsTruthyStr error <;>
          simp [getOtpInputContainerStyle, composedContainerStyle, optFrag,
            hf, herr]
  · cases isFocused <;>
      cases editable <;>
        cases herr : jsTruthyStr error <;>
          simp [getInputContainerStyle, composedContainerStyle, optFrag,
            herr]

/-- **C8 (counterexample).**  A descriptor without its own `maxLength`
renders with no maximum length even when the group-level `maxLength`
prop is 5: the claimed fallback to the group prop does not exist for
max length. -/
theorem split_max_length_no_fallback :
    ¬ (renderSplitInputProps { key := "dd" } "default" "none" (some 5) false
        true).maxLength = some 5 := by decide

/-- **C8 (amended).**  Keyboard type and capitalization fall back to the
group prop when absent (or empty, by `||` truthiness); the secure flag
is the group's unless the descriptor sets it to `true` (an explicit
`false` also falls back); the editable flag is the descriptor's exactly
when set; the max length is always the descriptor's own, with no
group-level fallback. -/
theorem split_field_prop_fallbacks (field : SplitField)
    (gKeyboard gCapitalize : String) (gMax : Option Nat)
    (gSecure gEditable : Bool) :
    (field.keyboardType = none →
      (renderSplitInputProps field gKeyboard gCapitalize gMax gSecure
        gEditable).keyboardType = gKeyboard) ∧
    (∀ s, field.keyboardType = some s → s.isEmpty = false →
      (renderSplitInputProps field gKeyboard gCapitalize gMax gSecure
        gEditable).keyboardType = s) ∧
    (field.autoCapitalize = none →
      (renderSplitInputProps field gKeyboard gCapitalize gMax gSecure
        gEditable).autoCapitalize = gCapitalize) ∧
    (∀ s, field.autoCapitalize = some s → s.isEmpty = false →
      (renderSplitInputProps field gKeyboard gCapitalize gMax gSecure
        gEditable).autoCapitalize = s) ∧
    (renderSplitInputProps field gKeyboard gCapitalize gMax gSecure
      gEditable).maxLength = field.maxLength ∧
    (field.secureTextEntry = some true →
      (renderSplitInputProps field gKeyboard gCapitalize gMax gSecure
        gEditable).secureTextEntry = true) ∧
    (field.secureTextEntry = none ∨ field.secureTextEntry = some false →
      (renderSplitInputProps field gKeyboard gCapitalize gMax gSecure
        gEditable).secureTextEntry = gSecure) ∧
    (∀ b, field.editable = some b →
      (renderSplitInputProps field gKeyboard gCapitalize gMax gSecure
        gEditable).editable = b) ∧
    (field.editable = none →
      (renderSplitInputProps field gKeyboard gCapitalize gMax gSecure
        gEditable).editable = gEditable) := by
  refine ⟨?_, ?_, ?_, ?_, rfl, ?_, ?_, ?_, ?_⟩
  · intro h; simp [renderSplitInputProps, jsOrStr, h]
  · intro s h hs; simp [renderSplitInputProps, jsOrStr, h, hs]
  · intro h; simp [renderSplitInputProps, jsOrStr, h]
  · intro s h hs; simp [renderSplitInputProps, jsOrStr, h, hs]
  · intro h; simp [renderSplitInputProps, jsOrBool, h]
  · intro h
    rcases h with h | h <;> simp [renderSplitInputProps, jsOrBool, h]
  · intro b h; simp [renderSplitInputProps, h]
  · intro h; simp [renderSplitInputProps, h]

/-- Witness for C8 (amended): a descriptor with no keyboard type and its
own max length 2 renders with the group keyboard type and max length 2
(group max 5 ignored). -/
theorem split_field_prop_fallbacks_witness :
    (renderSplitInputProps { key := "mm", maxLength := some 2 } "numeric"
      "none" (some 5) false true).keyboardType = "numeric" ∧
    (renderSplitInputProps { key := "mm", maxLength := some 2 } "numeric"
      "none" (some 5) false true).maxLength = some 2 := by
  have h := split_field_prop_fallbacks { key := "mm", maxLength := some 2 }
    "numeric" "none" (some 5) false true
  exact ⟨h.1 rfl, by rw [h.2.2.2.2.1]⟩

end CustomTextInput
